import Mathlib

/-!
Shallow embedding of the pdf-vi3wer application's core logic, translated from
the TypeScript source (`src/components/PdfViewer.tsx`, the continuous-scroll
viewer revision, `src/pages/Index.tsx` with cloud storage, and
`src/components/Bookshelf.tsx`), together with theorems settling the frozen
claims about the page viewer's navigation, zoom, page-input, scroll-sync and
render-cancellation behaviour and the bookshelf's add/open/upload flows.

Numbers that are JS floats in the source are modelled as rationals (`ℚ`);
`(x).toFixed(2)` becomes rounding to a multiple of 1/100.  External
collaborators (the pdf.js engine, the storage backend) enter only through
their interface contract: upload/download results are parameters, and the
render engine's cancellation contract (a cancelled render task writes no
pixels and rejects with `RenderingCancelledException`) is part of the render
state machine's step function.
-/

namespace Viewer

/-- Constant `MIN_SCALE` from `PdfViewer.tsx` (current revision): 0.25. -/
def MIN_SCALE : ℚ := 1/4

/-- Constant `MAX_SCALE` from `PdfViewer.tsx` (current revision): 4.0. -/
def MAX_SCALE : ℚ := 4

/-- Constant `SCALE_STEP` from `PdfViewer.tsx`: 0.25. -/
def SCALE_STEP : ℚ := 1/4

/-- Model of JS `+(x).toFixed(2)` on a nonnegative scale value: round to the
nearest multiple of 1/100 (half away from zero, which for the positive values
occurring here is half up, i.e. `⌊100·x + 1/2⌋ / 100`). -/
def toFixed2 (q : ℚ) : ℚ := ((⌊q * 100 + 1/2⌋ : ℤ) : ℚ) / 100

/-- The continuous-scroll viewer's `ScrollMode` type. -/
inductive ScrollMode
  | vertical
  | horizontal
deriving DecidableEq

/-- The React state of the continuous-scroll `PdfViewer` component that the
claims are about: `numPages`, `currentPage`, `scale`, `displayScale`,
`isLoading`, `error`, `pageInputValue`, `isFitMode`, `scrollMode`. -/
structure ViewerState where
  numPages : Nat
  currentPage : Int
  scale : ℚ
  displayScale : ℚ
  isLoading : Bool
  error : Option String
  pageInputValue : String
  isFitMode : Bool
  scrollMode : ScrollMode
deriving DecidableEq

/-- Function `navigate(delta)` from `PdfViewer.tsx`:
`next = Math.min(numPages, Math.max(1, currentPage + delta))`, then
`setCurrentPage(next); setPageInputValue(String(next))`.  The spec's
`goTo(n)` is the call with `delta = n - currentPage`, so the clamped target
is `n` itself. -/
def navigate (s : ViewerState) (delta : Int) : ViewerState :=
  let next := min (s.numPages : Int) (max 1 (s.currentPage + delta))
  { s with currentPage := next, pageInputValue := toString next }

/-- Function `zoomIn` from `PdfViewer.tsx`: `setIsFitMode(false)`, then
`next = Math.min(MAX_SCALE, +(scale + SCALE_STEP).toFixed(2))`,
`setScale(next); setDisplayScale(next)`. -/
def zoomIn (s : ViewerState) : ViewerState :=
  let next := min MAX_SCALE (toFixed2 (s.scale + SCALE_STEP))
  { s with isFitMode := false, scale := next, displayScale := next }

/-- Function `zoomOut` from `PdfViewer.tsx`: `setIsFitMode(false)`, then
`next = Math.max(MIN_SCALE, +(scale - SCALE_STEP).toFixed(2))`,
`setScale(next); setDisplayScale(next)`. -/
def zoomOut (s : ViewerState) : ViewerState :=
  let next := max MIN_SCALE (toFixed2 (s.scale - SCALE_STEP))
  { s with isFitMode := false, scale := next, displayScale := next }

/-- The whitespace characters skipped by JS `parseInt` before parsing. -/
def jsWhitespace (c : Char) : Bool :=
  c == ' ' || c == '\t' || c == '\n' || c == '\r'

/-- Value of a longest leading run of decimal digits, or `none` when the
input does not start with a digit (the `NaN` case of `parseInt`). -/
def digitsValue (cs : List Char) : Option Nat :=
  match cs.takeWhile Char.isDigit with
  | [] => none
  | ds => some (ds.foldl (fun acc c => 10 * acc + (c.toNat - 48)) 0)

/-- Model of JS `parseInt(s, 10)`: skip leading whitespace, read an optional
sign, then the longest run of decimal digits; `none` models `NaN`. -/
def parseIntBase10 (s : String) : Option Int :=
  match s.toList.dropWhile jsWhitespace with
  | '-' :: rest => (digitsValue rest).map (fun n => -(n : Int))
  | '+' :: rest => (digitsValue rest).map (fun n => (n : Int))
  | rest => (digitsValue rest).map (fun n => (n : Int))

/-- Function `commitPageInput` from `PdfViewer.tsx`: parse the text field with
`parseInt(pageInputValue, 10)`; if the result is a number within
`[1, numPages]`, set `currentPage` to it (the text field is left as typed);
otherwise reset the text field to `String(currentPage)` and leave
`currentPage` unchanged. -/
def commitPageInput (s : ViewerState) : ViewerState :=
  match parseIntBase10 s.pageInputValue with
  | some parsed =>
    if 1 ≤ parsed ∧ parsed ≤ (s.numPages : Int) then
      { s with currentPage := parsed }
    else
      { s with pageInputValue := toString s.currentPage }
  | none => { s with pageInputValue := toString s.currentPage }

/-- A DOM bounding rectangle, as returned by `getBoundingClientRect()`. -/
structure Rect where
  left : ℚ
  top : ℚ
  width : ℚ
  height : ℚ
deriving DecidableEq

/-- The center coordinate of a rectangle along the scroll axis:
`rect.left + rect.width / 2` in horizontal mode,
`rect.top + rect.height / 2` in vertical mode
(as in `syncCurrentPageFromScroll`). -/
def Rect.centerAlong (mode : ScrollMode) (r : Rect) : ℚ :=
  match mode with
  | .horizontal => r.left + r.width / 2
  | .vertical => r.top + r.height / 2

/-- The distance used by `syncCurrentPageFromScroll`:
`Math.abs(center - referencePoint)` where the reference point is the
container's center along the scroll axis. -/
def pageDist (mode : ScrollMode) (container r : Rect) : ℚ :=
  |Rect.centerAlong mode r - Rect.centerAlong mode container|

/-- One iteration of the `for (let page = 1; page <= numPages; page++)` loop
in `syncCurrentPageFromScroll`: pages without a DOM element are skipped
(`continue`); otherwise the page replaces the running nearest candidate
exactly when its distance is strictly smaller (`distance < nearestDistance`,
where the initial `nearestDistance` is `Number.POSITIVE_INFINITY`, modelled
by `none`). -/
def syncStep (mode : ScrollMode) (ref : ℚ) (rects : Nat → Option Rect)
    (acc : Int × Option ℚ) (page : Nat) : Int × Option ℚ :=
  match rects page with
  | none => acc
  | some r =>
    let d := |Rect.centerAlong mode r - ref|
    match acc.2 with
    | none => ((page : Int), some d)
    | some best => if d < best then ((page : Int), some d) else acc

/-- Function `syncCurrentPageFromScroll` from `PdfViewer.tsx` (the `onScroll` handler
of the continuous-scroll viewer): starting from
`nearestPage = currentPage, nearestDistance = ∞`, scan pages `1..numPages`
in ascending order and keep the strictly nearest page; then update
`currentPage` and `pageInputValue` if the nearest page differs from the
current one.  `rects` gives each page element's bounding rectangle (`none`
when the element is absent). -/
def syncCurrentPageFromScroll (s : ViewerState) (container : Rect)
    (rects : Nat → Option Rect) : ViewerState :=
  if s.numPages = 0 then s
  else
    let ref := Rect.centerAlong s.scrollMode container
    let nearest :=
      ((List.range' 1 s.numPages).foldl (syncStep s.scrollMode ref rects)
        (s.currentPage, none)).1
    if nearest = s.currentPage then s
    else { s with currentPage := nearest, pageInputValue := toString nearest }

/-- The dependency array of the `doRender` effect in `PdfViewer.tsx`:
`[isLoading, error, numPages, scale, isFitMode, computeFitScale,
renderAllPages]`, where `computeFitScale` changes only with `scrollMode` and
`renderAllPages` only with `numPages`.  The render effect re-runs exactly
when this tuple changes; note that `currentPage` is not in it. -/
structure RenderEffectDeps where
  isLoading : Bool
  error : Option String
  numPages : Nat
  scale : ℚ
  isFitMode : Bool
  scrollMode : ScrollMode
deriving DecidableEq

/-- Projection of a viewer state onto the render effect's dependencies. -/
def renderEffectDeps (s : ViewerState) : RenderEffectDeps :=
  ⟨s.isLoading, s.error, s.numPages, s.scale, s.isFitMode, s.scrollMode⟩

/-- A render task issued to the pdf.js engine: its id, the page it renders,
and whether `task.cancel()` has been called on it. -/
structure RenderTask where
  id : Nat
  page : Nat
  cancelled : Bool
deriving DecidableEq

/-- The rasterization bookkeeping of the continuous-scroll viewer together
with the in-progress invocations of `renderSinglePage`: `nextTaskId`
numbers issued render tasks and `nextInvId` numbers invocations; `pending`
holds invocations that have executed their synchronous prefix (including
the `cancel()` of the slot's registered task) and are suspended at
`await pdf.getPage`; `slots` is the `renderTaskRef` map as an
association list, newest entry first (`set` overwrites by shadowing,
entries are never deleted); `tasks` are the in-flight engine operations;
`drawn` records `(page, taskId)` for every raster actually written to a
canvas; `errorsLogged` records task ids whose failure reached
`console.error`. -/
structure RenderState where
  nextTaskId : Nat
  nextInvId : Nat
  pending : List (Nat × Nat)
  slots : List (Nat × Nat)
  tasks : List RenderTask
  drawn : List (Nat × Nat)
  errorsLogged : List Nat
deriving DecidableEq

/-- Observable events of the render protocol, cut at the suspension points
of `renderSinglePage`: `invoke p` is a call of `renderSinglePage(p, scale)`
running its synchronous prefix — cancel the slot's registered task, then
suspend at `await pdf.getPage`; `resume j` is invocation `j` resuming after
`getPage` resolves — `page.render` is issued and the new task is stored in
the `renderTaskRef` map; `abort j` is invocation `j`'s `getPage` rejecting
(the `catch` returns without issuing anything); `finish i ok` is the
completion of task `i`'s engine operation (`ok = false` models a genuine
rasterization failure). -/
inductive RenderEvent
  | invoke : Nat → RenderEvent
  | resume : Nat → RenderEvent
  | abort : Nat → RenderEvent
  | finish : Nat → Bool → RenderEvent
deriving DecidableEq

/-- Effect of `previousTask.cancel()` in `renderSinglePage`: the task whose
id is registered in the slot map is marked cancelled; cancelling a task
that has already completed (and is no longer in flight) is a no-op. -/
def cancelTask (i : Nat) (ts : List RenderTask) : List RenderTask :=
  ts.map (fun t => if t.id = i then { t with cancelled := true } else t)

/-- One step of the render protocol, from `renderSinglePage` together with
the engine contract of §6.  `invoke p` performs only the synchronous prefix
of the call: look up the slot's registered task and cancel it, then park
the invocation at the `await pdf.getPage` suspension — the new render task
does not exist yet.  `resume j` is the continuation after `getPage`
resolves: `page.render` is started and the fresh task is registered in the
slot map.  On `finish`, the completing task is removed from the in-flight
set, and — per the pdf.js contract — a cancelled task writes no pixels and
rejects with `RenderingCancelledException`, which the `catch` clause of
`renderSinglePage` deliberately does not log, while a genuine failure
writes nothing but is logged via `console.error`.  The slot map keeps its
entry after completion, as in the source. -/
def renderStep (σ : RenderState) : RenderEvent → RenderState
  | .invoke p =>
    { σ with
        tasks := match σ.slots.lookup p with
          | some i => cancelTask i σ.tasks
          | none => σ.tasks,
        pending := σ.pending ++ [(σ.nextInvId, p)],
        nextInvId := σ.nextInvId + 1 }
  | .resume j =>
    match σ.pending.find? (fun q => q.1 == j) with
    | none => σ
    | some q =>
      { σ with
          pending := σ.pending.filter (fun r => r.1 != j),
          tasks := ⟨σ.nextTaskId, q.2, false⟩ :: σ.tasks,
          slots := (q.2, σ.nextTaskId) :: σ.slots,
          nextTaskId := σ.nextTaskId + 1 }
  | .abort j =>
    { σ with pending := σ.pending.filter (fun r => r.1 != j) }
  | .finish i ok =>
    match σ.tasks.find? (fun t => t.id == i) with
    | none => σ
    | some t =>
      let rest := σ.tasks.filter (fun u => u.id != i)
      if t.cancelled then { σ with tasks := rest }
      else if ok then
        { σ with tasks := rest, drawn := (t.page, t.id) :: σ.drawn }
      else
        { σ with tasks := rest, errorsLogged := t.id :: σ.errorsLogged }

/-- Run a list of render events from a given state. -/
def renderStepList (σ : RenderState) (evs : List RenderEvent) : RenderState :=
  evs.foldl renderStep σ

/-- The render bookkeeping at component mount. -/
def initRenderState : RenderState := ⟨0, 0, [], [], [], [], []⟩

/-- Run a list of render events from the initial state. -/
def renderRun (evs : List RenderEvent) : RenderState :=
  renderStepList initRenderState evs

/-- Well-formedness of the render bookkeeping: issued task ids are below
`nextTaskId`, recorded rasters and logged errors stem from issued task ids,
and pending invocation ids are below `nextInvId`. -/
def RenderState.wf (σ : RenderState) : Prop :=
  (∀ t ∈ σ.tasks, t.id < σ.nextTaskId) ∧
  (∀ pr ∈ σ.drawn, pr.2 < σ.nextTaskId) ∧
  (∀ i ∈ σ.errorsLogged, i < σ.nextTaskId) ∧
  (∀ q ∈ σ.pending, q.1 < σ.nextInvId)

/-- The page list scanned by `syncCurrentPageFromScroll` grows one page at a
time at the top end. -/
theorem range_one_concat (n : Nat) :
    List.range' 1 (n+1) = List.range' 1 n ++ [n+1] := by
  have h : List.range' 1 (n+1) = List.range' 1 n ++ [1 + 1 * n] :=
    List.range'_concat 1 n
  simpa [Nat.add_comm] using h

/-- Invariant of the nearest-page loop: after scanning pages `1..n`, either
no scanned page had an element (and the accumulator still holds the initial
page with infinite distance), or the accumulator holds the lowest-numbered
page among the scanned pages with minimal distance, together with its
distance. -/
theorem syncFold_argmin (mode : ScrollMode) (ref : ℚ)
    (rects : Nat → Option Rect) (init : Int) (n : Nat) :
    ((∀ p : Nat, 1 ≤ p → p ≤ n → rects p = none) ∧
      (List.range' 1 n).foldl (syncStep mode ref rects) (init, none)
        = (init, none)) ∨
    (∃ q : Nat, ∃ rq : Rect, 1 ≤ q ∧ q ≤ n ∧ rects q = some rq ∧
      (List.range' 1 n).foldl (syncStep mode ref rects) (init, none)
        = ((q : Int), some |Rect.centerAlong mode rq - ref|) ∧
      (∀ p rp, 1 ≤ p → p ≤ n → rects p = some rp →
        |Rect.centerAlong mode rq - ref| ≤ |Rect.centerAlong mode rp - ref| ∧
        (|Rect.centerAlong mode rp - ref| = |Rect.centerAlong mode rq - ref| →
          q ≤ p))) := by
  induction n with
  | zero =>
    left
    exact ⟨by omega, rfl⟩
  | succ n ih =>
    rw [range_one_concat, List.foldl_append, List.foldl_cons, List.foldl_nil]
    rcases ih with ⟨hnone, hacc⟩ | ⟨q, rq, hq1, hq2, hqr, hacc, hmin⟩
    · rw [hacc]
      cases hr : rects (n+1) with
      | none =>
        left
        refine ⟨?_, by simp [syncStep, hr]⟩
        intro p hp1 hp2
        rcases Nat.lt_or_ge p (n+1) with h | h
        · exact hnone p hp1 (by omega)
        · have hp : p = n+1 := by omega
          rw [hp]
          exact hr
      | some r =>
        right
        refine ⟨n+1, r, by omega, le_refl _, hr, by simp [syncStep, hr], ?_⟩
        intro p rp hp1 hp2 hpr
        rcases Nat.lt_or_ge p (n+1) with h | h
        · rw [hnone p hp1 (by omega)] at hpr
          exact Option.noConfusion hpr
        · have hp : p = n+1 := by omega
          subst hp
          rw [hpr] at hr
          injection hr with hr'
          subst hr'
          exact ⟨le_refl _, fun _ => le_refl _⟩
    · rw [hacc]
      cases hr : rects (n+1) with
      | none =>
        right
        refine ⟨q, rq, hq1, by omega, hqr, by simp [syncStep, hr], ?_⟩
        intro p rp hp1 hp2 hpr
        rcases Nat.lt_or_ge p (n+1) with h | h
        · exact hmin p rp hp1 (by omega) hpr
        · have hp : p = n+1 := by omega
          subst hp
          rw [hpr] at hr
          exact Option.noConfusion hr
      | some r =>
        by_cases hlt :
          |Rect.centerAlong mode r - ref| < |Rect.centerAlong mode rq - ref|
        · right
          refine ⟨n+1, r, by omega, le_refl _, hr,
            by simp [syncStep, hr, hlt], ?_⟩
          intro p rp hp1 hp2 hpr
          rcases Nat.lt_or_ge p (n+1) with h | h
          · have h2 := (hmin p rp hp1 (by omega) hpr).1
            refine ⟨by linarith, fun heq => absurd heq (by
              intro heq
              rw [heq] at h2
              linarith)⟩
          · have hp : p = n+1 := by omega
            subst hp
            rw [hpr] at hr
            injection hr with hr'
            subst hr'
            exact ⟨le_refl _, fun _ => le_refl _⟩
        · right
          refine ⟨q, rq, hq1, by omega, hqr,
            by simp [syncStep, hr, hlt], ?_⟩
          intro p rp hp1 hp2 hpr
          rcases Nat.lt_or_ge p (n+1) with h | h
          · exact hmin p rp hp1 (by omega) hpr
          · have hp : p = n+1 := by omega
            subst hp
            rw [hpr] at hr
            injection hr with hr'
            subst hr'
            push_neg at hlt
            exact ⟨hlt, fun _ => by omega⟩

/-- C2 — on a scroll event with at least one page element present,
`syncCurrentPageFromScroll` sets `currentPage` to a rendered page whose
center-to-viewport-center distance along the scroll axis is minimal, and on
a tie it picks the lowest page number; the update changes none of the render
effect's dependencies (in particular neither `scale`, `isFitMode`,
`numPages`, `isLoading`, `error` nor `scrollMode`), so no re-render is
triggered — only `currentPage` and the page input field change. -/
theorem C2_scroll_sync (s : ViewerState) (container : Rect)
    (rects : Nat → Option Rect) (p0 : Nat) (r0 : Rect)
    (h1 : 1 ≤ p0) (h2 : p0 ≤ s.numPages) (h3 : rects p0 = some r0) :
    ∃ q : Nat, ∃ rq : Rect,
      1 ≤ q ∧ q ≤ s.numPages ∧ rects q = some rq ∧
      (syncCurrentPageFromScroll s container rects).currentPage = (q : Int) ∧
      (∀ p rp, 1 ≤ p → p ≤ s.numPages → rects p = some rp →
        pageDist s.scrollMode container rq
          ≤ pageDist s.scrollMode container rp ∧
        (pageDist s.scrollMode container rp
            = pageDist s.scrollMode container rq → q ≤ p)) ∧
      renderEffectDeps (syncCurrentPageFromScroll s container rects)
        = renderEffectDeps s ∧
      (syncCurrentPageFromScroll s container rects).scale = s.scale ∧
      (syncCurrentPageFromScroll s container rects).isFitMode
        = s.isFitMode := by
  have hn0 : ¬ s.numPages = 0 := by omega
  rcases syncFold_argmin s.scrollMode
      (Rect.centerAlong s.scrollMode container) rects s.currentPage
      s.numPages with ⟨hnone, _⟩ | ⟨q, rq, hq1, hq2, hqr, hacc, hmin⟩
  · rw [hnone p0 h1 h2] at h3
    exact Option.noConfusion h3
  · have hsync : syncCurrentPageFromScroll s container rects
        = (if (q : Int) = s.currentPage then s
           else { s with currentPage := (q : Int),
                         pageInputValue := toString (q : Int) }) := by
      unfold syncCurrentPageFromScroll
      rw [if_neg hn0]
      simp only [hacc]
    refine ⟨q, rq, hq1, hq2, hqr, ?_, ?_, ?_, ?_, ?_⟩
    · rw [hsync]
      by_cases h : (q : Int) = s.currentPage
      · rw [if_pos h]
        exact h.symm
      · rw [if_neg h]
    · intro p rp hp1 hp2 hpr
      exact hmin p rp hp1 hp2 hpr
    · rw [hsync]
      by_cases h : (q : Int) = s.currentPage
      · rw [if_pos h]
      · rw [if_neg h]
        rfl
    · rw [hsync]
      by_cases h : (q : Int) = s.currentPage
      · rw [if_pos h]
      · rw [if_neg h]
    · rw [hsync]
      by_cases h : (q : Int) = s.currentPage
      · rw [if_pos h]
      · rw [if_neg h]

/-- Marking a task id cancelled changes no task's id or page. -/
theorem cancelTask_mem {i : Nat} {ts : List RenderTask} {t : RenderTask}
    (h : t ∈ cancelTask i ts) :
    ∃ t0 ∈ ts, t.id = t0.id ∧ t.page = t0.page := by
  unfold cancelTask at h
  obtain ⟨t0, ht0, heq⟩ := List.mem_map.mp h
  refine ⟨t0, ht0, ?_⟩
  by_cases hp : t0.id = i
  · rw [if_pos hp] at heq
    rw [← heq]
    exact ⟨rfl, rfl⟩
  · rw [if_neg hp] at heq
    rw [← heq]
    exact ⟨rfl, rfl⟩

/-- A task that is still live after `cancelTask i` was live before and does
not carry the cancelled id. -/
theorem live_of_cancelTask {i : Nat} {ts : List RenderTask}
    {t : RenderTask} (h : t ∈ cancelTask i ts) (hc : t.cancelled = false) :
    t ∈ ts ∧ t.id ≠ i := by
  unfold cancelTask at h
  obtain ⟨t0, ht0, heq⟩ := List.mem_map.mp h
  by_cases hp : t0.id = i
  · rw [if_pos hp] at heq
    rw [← heq] at hc
    exact absurd hc (by simp)
  · rw [if_neg hp] at heq
    rw [← heq]
    exact ⟨ht0, hp⟩

/-- Cancelling an id below every in-flight id is a no-op. -/
theorem cancelTask_eq_self_of_lt {i : Nat} {ts : List RenderTask}
    (h : ∀ t ∈ ts, t.id < i) : cancelTask i ts = ts := by
  induction ts with
  | nil => rfl
  | cons t ts ih =>
    unfold cancelTask at ih ⊢
    simp only [List.map_cons]
    rw [if_neg (by have := h t (by simp); omega)]
    rw [ih (fun u hu => h u (by simp [hu]))]

/-- Cancelling the head task's own id marks exactly that head. -/
theorem cancelTask_cons_self (i p : Nat) (c : Bool)
    (ts : List RenderTask) :
    cancelTask i (RenderTask.mk i p c :: ts)
      = RenderTask.mk i p true :: cancelTask i ts := by
  unfold cancelTask
  simp

/-- A filter on "id different from `i`" is the identity when every id is
below `i`. -/
theorem filter_id_ne_of_lt {i : Nat} {ts : List RenderTask}
    (h : ∀ t ∈ ts, t.id < i) : ts.filter (fun t => t.id != i) = ts :=
  List.filter_eq_self.mpr (fun t ht => by
    have := h t ht
    simp only [bne_iff_ne, ne_eq]
    omega)

/-- A freshly appended invocation is the one its id finds, when every
earlier pending id is smaller. -/
theorem find?_fst_append_last {j : Nat} {l : List (Nat × Nat)} (p : Nat)
    (h : ∀ q ∈ l, q.1 < j) :
    (l ++ [(j, p)]).find? (fun q => q.1 == j) = some (j, p) := by
  induction l with
  | nil => simp
  | cons a l ih =>
    have ha : (a.1 == j) = false := by
      have := h a (by simp)
      simp only [beq_eq_false_iff_ne, ne_eq]
      omega
    simp only [List.cons_append, List.find?_cons, ha]
    exact ih (fun q hq => h q (by simp [hq]))

/-- Removing a freshly appended invocation by its id restores the pending
list, when every earlier pending id is smaller. -/
theorem filter_fst_ne_append_last {j : Nat} {l : List (Nat × Nat)} (p : Nat)
    (h : ∀ q ∈ l, q.1 < j) :
    (l ++ [(j, p)]).filter (fun r => r.1 != j) = l := by
  induction l with
  | nil => simp
  | cons a l ih =>
    have ha : (a.1 != j) = true := by
      have := h a (by simp)
      simp only [bne_iff_ne, ne_eq]
      omega
    simp only [List.cons_append, List.filter_cons, ha, if_true]
    rw [ih (fun q hq => h q (by simp [hq]))]

/-- Every step of the render protocol preserves the id-bound bookkeeping
facts. -/
theorem wf_renderStep {σ : RenderState} (h : σ.wf) (ev : RenderEvent) :
    (renderStep σ ev).wf := by
  obtain ⟨hT, hD, hE, hI⟩ := h
  cases ev with
  | invoke p =>
    refine ⟨?_, hD, hE, ?_⟩
    · intro t ht
      show t.id < σ.nextTaskId
      simp only [renderStep] at ht
      cases hl : σ.slots.lookup p with
      | none =>
        simp only [hl] at ht
        exact hT t ht
      | some i =>
        simp only [hl] at ht
        obtain ⟨t0, ht0, hid, -⟩ := cancelTask_mem ht
        rw [hid]
        exact hT t0 ht0
    · intro q hq
      show q.1 < σ.nextInvId + 1
      simp only [renderStep] at hq
      rcases List.mem_append.mp hq with hq | hq
      · have := hI q hq
        omega
      · simp only [List.mem_singleton] at hq
        rw [hq]
        show σ.nextInvId < σ.nextInvId + 1
        omega
  | resume j =>
    cases hf : σ.pending.find? (fun q => q.1 == j) with
    | none =>
      simp only [renderStep, hf]
      exact ⟨hT, hD, hE, hI⟩
    | some q =>
      simp only [renderStep, hf]
      refine ⟨?_, ?_, ?_, ?_⟩
      · intro t ht
        rcases List.mem_cons.mp ht with rfl | ht
        · show σ.nextTaskId < σ.nextTaskId + 1
          omega
        · have := hT t ht
          show t.id < σ.nextTaskId + 1
          omega
      · intro pr hpr
        have := hD pr hpr
        show pr.2 < σ.nextTaskId + 1
        omega
      · intro i hi
        have := hE i hi
        show i < σ.nextTaskId + 1
        omega
      · intro r hr
        exact hI r (List.mem_of_mem_filter hr)
  | abort j =>
    refine ⟨hT, hD, hE, ?_⟩
    intro r hr
    exact hI r (List.mem_of_mem_filter hr)
  | finish i ok =>
    cases hfind : σ.tasks.find? (fun t => t.id == i) with
    | none =>
      simp only [renderStep, hfind]
      exact ⟨hT, hD, hE, hI⟩
    | some t =>
      have htmem : t ∈ σ.tasks := List.mem_of_find?_eq_some hfind
      have hrest : ∀ u ∈ σ.tasks.filter (fun u => u.id != i),
          u.id < σ.nextTaskId :=
        fun u hu => hT u (List.mem_of_mem_filter hu)
      simp only [renderStep, hfind]
      by_cases hc : t.cancelled
      · rw [if_pos hc]
        exact ⟨hrest, hD, hE, hI⟩
      · rw [if_neg hc]
        cases ok with
        | true =>
          rw [if_pos rfl]
          refine ⟨hrest, ?_, hE, hI⟩
          intro pr hpr
          rcases List.mem_cons.mp hpr with rfl | hpr
          · exact hT t htmem
          · exact hD pr hpr
        | false =>
          rw [if_neg Bool.false_ne_true]
          refine ⟨hrest, hD, ?_, hI⟩
          intro k hk
          rcases List.mem_cons.mp hk with rfl | hk
          · exact hT t htmem
          · exact hE k hk

/-- The initial render bookkeeping is well formed. -/
theorem wf_initRenderState : initRenderState.wf := by
  refine ⟨?_, ?_, ?_, ?_⟩ <;> simp [initRenderState]

/-- Well-formedness is preserved along any event list. -/
theorem wf_renderStepList {σ : RenderState} (h : σ.wf)
    (evs : List RenderEvent) : (renderStepList σ evs).wf := by
  induction evs generalizing σ with
  | nil => exact h
  | cons ev evs ih => exact ih (wf_renderStep h ev)

/-- Every reachable render bookkeeping state is well formed. -/
theorem wf_renderRun (evs : List RenderEvent) : (renderRun evs).wf :=
  wf_renderStepList wf_initRenderState evs

/-- Running events from a prefix composes. -/
theorem renderRun_append (evs l : List RenderEvent) :
    renderRun (evs ++ l) = renderStepList (renderRun evs) l := by
  unfold renderRun renderStepList
  exact List.foldl_append _ _ _ _

/-- State computation for two non-overlapping invocations of page `p` from
a state whose in-flight tasks are `T1`, a fresh placeholder invocation
already parked: the first invocation resumes and registers task
`nextTaskId`; the second invocation cancels exactly that task and resumes
as task `nextTaskId + 1`; finishing the two tasks in either order gives the
same final state, in which only the second task's outcome is applied. -/
theorem seq_states (σ : RenderState) (p : Nat) (ok1 ok2 : Bool)
    (T1 : List RenderTask)
    (hT1id : ∀ t ∈ T1, t.id < σ.nextTaskId)
    (hInv : ∀ q ∈ σ.pending, q.1 < σ.nextInvId) :
    (renderStepList
        { σ with tasks := T1,
                 pending := σ.pending ++ [(σ.nextInvId, p)],
                 nextInvId := σ.nextInvId + 1 }
        [.resume σ.nextInvId, .invoke p, .resume (σ.nextInvId + 1)]
      = { σ with
            nextTaskId := σ.nextTaskId + 1 + 1,
            nextInvId := σ.nextInvId + 1 + 1,
            slots := (p, σ.nextTaskId + 1) :: (p, σ.nextTaskId) :: σ.slots,
            tasks := RenderTask.mk (σ.nextTaskId + 1) p false
              :: RenderTask.mk σ.nextTaskId p true :: T1 }) ∧
    (renderStepList
        { σ with tasks := T1,
                 pending := σ.pending ++ [(σ.nextInvId, p)],
                 nextInvId := σ.nextInvId + 1 }
        [.resume σ.nextInvId, .invoke p, .resume (σ.nextInvId + 1),
          .finish σ.nextTaskId ok1, .finish (σ.nextTaskId + 1) ok2]
      = { σ with
            nextTaskId := σ.nextTaskId + 1 + 1,
            nextInvId := σ.nextInvId + 1 + 1,
            slots := (p, σ.nextTaskId + 1) :: (p, σ.nextTaskId) :: σ.slots,
            tasks := T1,
            drawn := if ok2 then (p, σ.nextTaskId + 1) :: σ.drawn
              else σ.drawn,
            errorsLogged := if ok2 then σ.errorsLogged
              else (σ.nextTaskId + 1) :: σ.errorsLogged }) ∧
    (renderStepList
        { σ with tasks := T1,
                 pending := σ.pending ++ [(σ.nextInvId, p)],
                 nextInvId := σ.nextInvId + 1 }
        [.resume σ.nextInvId, .invoke p, .resume (σ.nextInvId + 1),
          .finish (σ.nextTaskId + 1) ok2, .finish σ.nextTaskId ok1]
      = { σ with
            nextTaskId := σ.nextTaskId + 1 + 1,
            nextInvId := σ.nextInvId + 1 + 1,
            slots := (p, σ.nextTaskId + 1) :: (p, σ.nextTaskId) :: σ.slots,
            tasks := T1,
            drawn := if ok2 then (p, σ.nextTaskId + 1) :: σ.drawn
              else σ.drawn,
            errorsLogged := if ok2 then σ.errorsLogged
              else (σ.nextTaskId + 1) :: σ.errorsLogged }) := by
  have hInv1 : ∀ q ∈ σ.pending, q.1 < σ.nextInvId + 1 :=
    fun q hq => Nat.lt_succ_of_lt (hInv q hq)
  have hfind1 : (σ.pending ++ [(σ.nextInvId, p)]).find?
      (fun q => q.1 == σ.nextInvId) = some (σ.nextInvId, p) :=
    find?_fst_append_last p hInv
  have hfilt1 : (σ.pending ++ [(σ.nextInvId, p)]).filter
      (fun r => r.1 != σ.nextInvId) = σ.pending :=
    filter_fst_ne_append_last p hInv
  have hfind2 : (σ.pending ++ [(σ.nextInvId + 1, p)]).find?
      (fun q => q.1 == σ.nextInvId + 1) = some (σ.nextInvId + 1, p) :=
    find?_fst_append_last p hInv1
  have hfilt2 : (σ.pending ++ [(σ.nextInvId + 1, p)]).filter
      (fun r => r.1 != σ.nextInvId + 1) = σ.pending :=
    filter_fst_ne_append_last p hInv1
  have hlook : ((p, σ.nextTaskId) :: σ.slots).lookup p
      = some σ.nextTaskId := by
    simp [List.lookup]
  have hcs : cancelTask σ.nextTaskId T1 = T1 := cancelTask_eq_self_of_lt hT1id
  have hT1id' : ∀ t ∈ T1, t.id < σ.nextTaskId + 1 :=
    fun t ht => Nat.lt_succ_of_lt (hT1id t ht)
  have hf1T : T1.filter (fun u => u.id != σ.nextTaskId) = T1 :=
    filter_id_ne_of_lt hT1id
  have hf2T : T1.filter (fun u => u.id != σ.nextTaskId + 1) = T1 :=
    filter_id_ne_of_lt hT1id'
  have e_ff : ((σ.nextTaskId + 1 == σ.nextTaskId)) = false := by
    simp only [beq_eq_false_iff_ne, ne_eq]
    omega
  have b_tt : ((σ.nextTaskId + 1 != σ.nextTaskId)) = true := by
    simp only [bne_iff_ne, ne_eq]
    omega
  have b_tt2 : ((σ.nextTaskId != σ.nextTaskId + 1)) = true := by
    simp only [bne_iff_ne, ne_eq]
    omega
  have h1 : renderStep
      { σ with tasks := T1,
               pending := σ.pending ++ [(σ.nextInvId, p)],
               nextInvId := σ.nextInvId + 1 } (.resume σ.nextInvId)
      = { σ with tasks := RenderTask.mk σ.nextTaskId p false :: T1,
                 slots := (p, σ.nextTaskId) :: σ.slots,
                 nextTaskId := σ.nextTaskId + 1,
                 nextInvId := σ.nextInvId + 1 } := by
    simp only [renderStep, hfind1, hfilt1]
  have h2 : renderStep
      { σ with tasks := RenderTask.mk σ.nextTaskId p false :: T1,
               slots := (p, σ.nextTaskId) :: σ.slots,
               nextTaskId := σ.nextTaskId + 1,
               nextInvId := σ.nextInvId + 1 } (.invoke p)
      = { σ with tasks := RenderTask.mk σ.nextTaskId p true :: T1,
                 pending := σ.pending ++ [(σ.nextInvId + 1, p)],
                 slots := (p, σ.nextTaskId) :: σ.slots,
                 nextTaskId := σ.nextTaskId + 1,
                 nextInvId := σ.nextInvId + 1 + 1 } := by
    simp only [renderStep, hlook, cancelTask_cons_self, hcs]
  have h3 : renderStep
      { σ with tasks := RenderTask.mk σ.nextTaskId p true :: T1,
               pending := σ.pending ++ [(σ.nextInvId + 1, p)],
               slots := (p, σ.nextTaskId) :: σ.slots,
               nextTaskId := σ.nextTaskId + 1,
               nextInvId := σ.nextInvId + 1 + 1 } (.resume (σ.nextInvId + 1))
      = { σ with
            nextTaskId := σ.nextTaskId + 1 + 1,
            nextInvId := σ.nextInvId + 1 + 1,
            slots := (p, σ.nextTaskId + 1) :: (p, σ.nextTaskId) :: σ.slots,
            tasks := RenderTask.mk (σ.nextTaskId + 1) p false
              :: RenderTask.mk σ.nextTaskId p true :: T1 } := by
    simp only [renderStep, hfind2, hfilt2]
  have h4 : renderStepList
      { σ with tasks := T1,
               pending := σ.pending ++ [(σ.nextInvId, p)],
               nextInvId := σ.nextInvId + 1 }
      [.resume σ.nextInvId, .invoke p, .resume (σ.nextInvId + 1)]
      = { σ with
            nextTaskId := σ.nextTaskId + 1 + 1,
            nextInvId := σ.nextInvId + 1 + 1,
            slots := (p, σ.nextTaskId + 1) :: (p, σ.nextTaskId) :: σ.slots,
            tasks := RenderTask.mk (σ.nextTaskId + 1) p false
              :: RenderTask.mk σ.nextTaskId p true :: T1 } := by
    show renderStep (renderStep (renderStep
        { σ with tasks := T1,
                 pending := σ.pending ++ [(σ.nextInvId, p)],
                 nextInvId := σ.nextInvId + 1 }
        (.resume σ.nextInvId)) (.invoke p)) (.resume (σ.nextInvId + 1)) = _
    rw [h1, h2, h3]
  refine ⟨h4, ?_, ?_⟩
  · show renderStep (renderStep (renderStepList
        { σ with tasks := T1,
                 pending := σ.pending ++ [(σ.nextInvId, p)],
                 nextInvId := σ.nextInvId + 1 }
        [.resume σ.nextInvId, .invoke p, .resume (σ.nextInvId + 1)])
        (.finish σ.nextTaskId ok1)) (.finish (σ.nextTaskId + 1) ok2) = _
    rw [h4]
    cases ok2 with
    | true =>
      simp [renderStep, List.find?_cons, List.filter_cons, e_ff, b_tt,
        hf1T, hf2T]
    | false =>
      simp [renderStep, List.find?_cons, List.filter_cons, e_ff, b_tt,
        hf1T, hf2T]
  · show renderStep (renderStep (renderStepList
        { σ with tasks := T1,
                 pending := σ.pending ++ [(σ.nextInvId, p)],
                 nextInvId := σ.nextInvId + 1 }
        [.resume σ.nextInvId, .invoke p, .resume (σ.nextInvId + 1)])
        (.finish (σ.nextTaskId + 1) ok2)) (.finish σ.nextTaskId ok1) = _
    rw [h4]
    cases ok2 with
    | true =>
      simp [renderStep, List.find?_cons, List.filter_cons, b_tt2,
        hf1T, hf2T]
    | false =>
      simp [renderStep, List.find?_cons, List.filter_cons, b_tt2,
        hf1T, hf2T]

/-- C1 counterexample — overlapping invocations genuinely break the
single-flight discipline.  Two `renderSinglePage(1)` calls both run their
synchronous prefix (the cancel finds no registered live task) before either
resumes from `await pdf.getPage`; this interleaving is reachable in the
source because `doRender` passes are never aborted and re-trigger
themselves via `setScale(fit)` (or a resize), so a second `renderAllPages`
pass can call `renderSinglePage` for a page while the first pass's call for
the same page still sits at the `getPage` suspension.  Both invocations
then register render tasks: two non-cancelled renders are in flight for
page 1 at once, and — completing the newer task first — the superseded
first request's raster is drawn to the canvas after the second request has
completed. -/
theorem C1_render_overlap_counterexample :
    ((renderRun [RenderEvent.invoke 1, RenderEvent.invoke 1,
        RenderEvent.resume 0, RenderEvent.resume 1]).tasks.filter
          (fun t => t.page == 1 && !t.cancelled)).length = 2 ∧
    (1, 1) ∈ (renderRun [RenderEvent.invoke 1, RenderEvent.invoke 1,
        RenderEvent.resume 0, RenderEvent.resume 1,
        RenderEvent.finish 1 true, RenderEvent.finish 0 true]).drawn ∧
    (1, 0) ∈ (renderRun [RenderEvent.invoke 1, RenderEvent.invoke 1,
        RenderEvent.resume 0, RenderEvent.resume 1,
        RenderEvent.finish 1 true, RenderEvent.finish 0 true]).drawn := by
  decide

/-- C1 (amended) — per-slot render discipline of `renderSinglePage` for
non-overlapping invocations.  From any reachable state in which every live
task of page `p` is the one registered in the slot map (no residue of
overlapping invocations): (i) a new invocation cancels the slot's pending
render during its synchronous prefix, so right after the cancel no task of
`p` is live; (ii) after two back-to-back non-overlapping requests for `p`
(each resuming from `getPage` before the next invocation begins) exactly
one non-cancelled render task for `p` is in flight, namely the second one;
(iii) completing the two tasks in either order yields the identical final
state; and (iv) in it the superseded first task's raster is never drawn
and its outcome is never logged — cancellation is not an error, whatever
its `ok1` flag — while the second task's raster is applied exactly on
success and its failure logged exactly on genuine failure.  When
invocations for the same page overlap at the `await pdf.getPage`
suspension this discipline fails — see the counterexample. -/
theorem C1_render_single_flight (evs : List RenderEvent) (p : Nat)
    (ok1 ok2 : Bool)
    (hLive : ∀ t ∈ (renderRun evs).tasks, t.page = p →
      t.cancelled = false →
      (renderRun evs).slots.lookup p = some t.id) :
    (∀ t ∈ (renderStep (renderRun evs) (.invoke p)).tasks,
        t.page = p → t.cancelled = true) ∧
    (((renderRun (evs ++ [.invoke p, .resume (renderRun evs).nextInvId,
        .invoke p, .resume ((renderRun evs).nextInvId + 1)])).tasks.filter
          (fun t => t.page == p && !t.cancelled)).length = 1) ∧
    (∀ t ∈ (renderRun (evs ++ [.invoke p,
        .resume (renderRun evs).nextInvId, .invoke p,
        .resume ((renderRun evs).nextInvId + 1)])).tasks,
      t.page = p → t.cancelled = false →
      t.id = (renderRun evs).nextTaskId + 1) ∧
    renderRun (evs ++ [.invoke p, .resume (renderRun evs).nextInvId,
        .invoke p, .resume ((renderRun evs).nextInvId + 1),
        .finish (renderRun evs).nextTaskId ok1,
        .finish ((renderRun evs).nextTaskId + 1) ok2])
      = renderRun (evs ++ [.invoke p, .resume (renderRun evs).nextInvId,
          .invoke p, .resume ((renderRun evs).nextInvId + 1),
          .finish ((renderRun evs).nextTaskId + 1) ok2,
          .finish (renderRun evs).nextTaskId ok1]) ∧
    ((p, (renderRun evs).nextTaskId + 1) ∈
        (renderRun (evs ++ [.invoke p, .resume (renderRun evs).nextInvId,
          .invoke p, .resume ((renderRun evs).nextInvId + 1),
          .finish (renderRun evs).nextTaskId ok1,
          .finish ((renderRun evs).nextTaskId + 1) ok2])).drawn
      ↔ ok2 = true) ∧
    (p, (renderRun evs).nextTaskId) ∉
      (renderRun (evs ++ [.invoke p, .resume (renderRun evs).nextInvId,
        .invoke p, .resume ((renderRun evs).nextInvId + 1),
        .finish (renderRun evs).nextTaskId ok1,
        .finish ((renderRun evs).nextTaskId + 1) ok2])).drawn ∧
    (renderRun evs).nextTaskId ∉
      (renderRun (evs ++ [.invoke p, .resume (renderRun evs).nextInvId,
        .invoke p, .resume ((renderRun evs).nextInvId + 1),
        .finish (renderRun evs).nextTaskId ok1,
        .finish ((renderRun evs).nextTaskId + 1) ok2])).errorsLogged ∧
    ((renderRun evs).nextTaskId + 1 ∈
        (renderRun (evs ++ [.invoke p, .resume (renderRun evs).nextInvId,
          .invoke p, .resume ((renderRun evs).nextInvId + 1),
          .finish (renderRun evs).nextTaskId ok1,
          .finish ((renderRun evs).nextTaskId + 1) ok2])).errorsLogged
      ↔ ok2 = false) := by
  obtain ⟨hT, hD, hE, hI⟩ := wf_renderRun evs
  have hT1live : ∀ t ∈ (renderStep (renderRun evs) (.invoke p)).tasks,
      t.page = p → t.cancelled = true := by
    intro t ht hp
    cases hcanc : t.cancelled with
    | true => rfl
    | false =>
      exfalso
      simp only [renderStep] at ht
      cases hl : (renderRun evs).slots.lookup p with
      | none =>
        simp only [hl] at ht
        have hcon := hLive t ht hp hcanc
        rw [hl] at hcon
        exact Option.noConfusion hcon
      | some i =>
        simp only [hl] at ht
        obtain ⟨hmem, hne⟩ := live_of_cancelTask ht hcanc
        have hcon := hLive t hmem hp hcanc
        rw [hl] at hcon
        injection hcon with h'
        exact hne h'.symm
  have hT1id : ∀ t ∈ (renderStep (renderRun evs) (.invoke p)).tasks,
      t.id < (renderRun evs).nextTaskId := by
    intro t ht
    simp only [renderStep] at ht
    cases hl : (renderRun evs).slots.lookup p with
    | none =>
      simp only [hl] at ht
      exact hT t ht
    | some i =>
      simp only [hl] at ht
      obtain ⟨t0, ht0, hid, -⟩ := cancelTask_mem ht
      rw [hid]
      exact hT t0 ht0
  have hs1 : renderStep (renderRun evs) (.invoke p)
      = { renderRun evs with
            tasks := (renderStep (renderRun evs) (.invoke p)).tasks,
            pending := (renderRun evs).pending
              ++ [((renderRun evs).nextInvId, p)],
            nextInvId := (renderRun evs).nextInvId + 1 } := by
    cases hl : (renderRun evs).slots.lookup p <;>
      simp only [renderStep, hl]
  obtain ⟨hs4, hsA, hsB⟩ := seq_states (renderRun evs) p ok1 ok2
    ((renderStep (renderRun evs) (.invoke p)).tasks) hT1id hI
  have h4 : renderRun (evs ++ [.invoke p, .resume (renderRun evs).nextInvId,
      .invoke p, .resume ((renderRun evs).nextInvId + 1)])
      = { renderRun evs with
            nextTaskId := (renderRun evs).nextTaskId + 1 + 1,
            nextInvId := (renderRun evs).nextInvId + 1 + 1,
            slots := (p, (renderRun evs).nextTaskId + 1)
              :: (p, (renderRun evs).nextTaskId) :: (renderRun evs).slots,
            tasks := RenderTask.mk ((renderRun evs).nextTaskId + 1) p false
              :: RenderTask.mk (renderRun evs).nextTaskId p true
              :: (renderStep (renderRun evs) (.invoke p)).tasks } := by
    rw [renderRun_append]
    show renderStepList (renderStep (renderRun evs) (.invoke p))
        [.resume (renderRun evs).nextInvId, .invoke p,
          .resume ((renderRun evs).nextInvId + 1)] = _
    rw [hs1]
    exact hs4
  have hA : renderRun (evs ++ [.invoke p, .resume (renderRun evs).nextInvId,
      .invoke p, .resume ((renderRun evs).nextInvId + 1),
      .finish (renderRun evs).nextTaskId ok1,
      .finish ((renderRun evs).nextTaskId + 1) ok2])
      = { renderRun evs with
            nextTaskId := (renderRun evs).nextTaskId + 1 + 1,
            nextInvId := (renderRun evs).nextInvId + 1 + 1,
            slots := (p, (renderRun evs).nextTaskId + 1)
              :: (p, (renderRun evs).nextTaskId) :: (renderRun evs).slots,
            tasks := (renderStep (renderRun evs) (.invoke p)).tasks,
            drawn := if ok2 then (p, (renderRun evs).nextTaskId + 1)
              :: (renderRun evs).drawn else (renderRun evs).drawn,
            errorsLogged := if ok2 then (renderRun evs).errorsLogged
              else ((renderRun evs).nextTaskId + 1)
                :: (renderRun evs).errorsLogged } := by
    rw [renderRun_append]
    show renderStepList (renderStep (renderRun evs) (.invoke p))
        [.resume (renderRun evs).nextInvId, .invoke p,
          .resume ((renderRun evs).nextInvId + 1),
          .finish (renderRun evs).nextTaskId ok1,
          .finish ((renderRun evs).nextTaskId + 1) ok2] = _
    rw [hs1]
    exact hsA
  have hB : renderRun (evs ++ [.invoke p, .resume (renderRun evs).nextInvId,
      .invoke p, .resume ((renderRun evs).nextInvId + 1),
      .finish ((renderRun evs).nextTaskId + 1) ok2,
      .finish (renderRun evs).nextTaskId ok1])
      = { renderRun evs with
            nextTaskId := (renderRun evs).nextTaskId + 1 + 1,
            nextInvId := (renderRun evs).nextInvId + 1 + 1,
            slots := (p, (renderRun evs).nextTaskId + 1)
              :: (p, (renderRun evs).nextTaskId) :: (renderRun evs).slots,
            tasks := (renderStep (renderRun evs) (.invoke p)).tasks,
            drawn := if ok2 then (p, (renderRun evs).nextTaskId + 1)
              :: (renderRun evs).drawn else (renderRun evs).drawn,
            errorsLogged := if ok2 then (renderRun evs).errorsLogged
              else ((renderRun evs).nextTaskId + 1)
                :: (renderRun evs).errorsLogged } := by
    rw [renderRun_append]
    show renderStepList (renderStep (renderRun evs) (.invoke p))
        [.resume (renderRun evs).nextInvId, .invoke p,
          .resume ((renderRun evs).nextInvId + 1),
          .finish ((renderRun evs).nextTaskId + 1) ok2,
          .finish (renderRun evs).nextTaskId ok1] = _
    rw [hs1]
    exact hsB
  have hTfilter : ((renderStep (renderRun evs) (.invoke p)).tasks).filter
      (fun t => t.page == p && !t.cancelled) = [] := by
    rw [List.filter_eq_nil_iff]
    intro t ht
    by_cases hp : t.page = p
    · have := hT1live t ht hp
      simp [this]
    · simp [hp]
  refine ⟨hT1live, ?_, ?_, ?_, ?_, ?_, ?_, ?_⟩
  · rw [h4]
    simp [hTfilter]
  · intro t ht hp hc
    rw [h4] at ht
    rcases List.mem_cons.mp ht with rfl | ht
    · rfl
    rcases List.mem_cons.mp ht with rfl | ht
    · exact absurd hc (by simp)
    · have hcanc := hT1live t ht hp
      rw [hcanc] at hc
      exact absurd hc (by simp)
  · rw [hA, hB]
  · rw [hA]
    cases ok2 with
    | true => simp
    | false =>
      simp only [Bool.false_eq_true, if_false, iff_false]
      intro hmem
      have hlt : ((p, (renderRun evs).nextTaskId + 1) : Nat × Nat).2
          < (renderRun evs).nextTaskId := hD _ hmem
      have hlt2 : (renderRun evs).nextTaskId + 1
          < (renderRun evs).nextTaskId := hlt
      omega
  · rw [hA]
    cases ok2 with
    | true =>
      simp only [if_true]
      intro hmem
      rcases List.mem_cons.mp hmem with heq | hmem
      · have : (renderRun evs).nextTaskId
            = (renderRun evs).nextTaskId + 1 := congrArg Prod.snd heq
        omega
      · have hlt : ((p, (renderRun evs).nextTaskId) : Nat × Nat).2
            < (renderRun evs).nextTaskId := hD _ hmem
        have hlt2 : (renderRun evs).nextTaskId
            < (renderRun evs).nextTaskId := hlt
        omega
    | false =>
      simp only [Bool.false_eq_true, if_false]
      intro hmem
      have hlt : ((p, (renderRun evs).nextTaskId) : Nat × Nat).2
          < (renderRun evs).nextTaskId := hD _ hmem
      have hlt2 : (renderRun evs).nextTaskId
          < (renderRun evs).nextTaskId := hlt
      omega
  · rw [hA]
    cases ok2 with
    | true =>
      simp only [if_true]
      intro hmem
      have hlt : (renderRun evs).nextTaskId
          < (renderRun evs).nextTaskId := hE _ hmem
      omega
    | false =>
      simp only [Bool.false_eq_true, if_false]
      intro hmem
      rcases List.mem_cons.mp hmem with heq | hmem
      · omega
      · have hlt : (renderRun evs).nextTaskId
            < (renderRun evs).nextTaskId := hE _ hmem
        omega
  · rw [hA]
    cases ok2 with
    | true =>
      simp only [if_true, Bool.true_eq_false, iff_false]
      intro hmem
      have hlt : (renderRun evs).nextTaskId + 1
          < (renderRun evs).nextTaskId := hE _ hmem
      omega
    | false =>
      simp only [Bool.false_eq_true, if_false]
      simp

/-- C1 witness — from the freshly mounted viewer, page 1 requested twice
without overlap (each invocation resumes before the next begins), both
tasks completing successfully: exactly one render is left in flight after
the two requests, only the second task's raster (task id 1) is drawn, and
the superseded first task (id 0) is never drawn and never logged. -/
theorem C1_render_single_flight_witness :
    ((renderRun [RenderEvent.invoke 1, RenderEvent.resume 0,
        RenderEvent.invoke 1, RenderEvent.resume 1]).tasks.filter
          (fun t => t.page == 1 && !t.cancelled)).length = 1 ∧
    (1, 1) ∈ (renderRun [RenderEvent.invoke 1, RenderEvent.resume 0,
        RenderEvent.invoke 1, RenderEvent.resume 1,
        RenderEvent.finish 0 true, RenderEvent.finish 1 true]).drawn ∧
    (1, 0) ∉ (renderRun [RenderEvent.invoke 1, RenderEvent.resume 0,
        RenderEvent.invoke 1, RenderEvent.resume 1,
        RenderEvent.finish 0 true, RenderEvent.finish 1 true]).drawn ∧
    0 ∉ (renderRun [RenderEvent.invoke 1, RenderEvent.resume 0,
        RenderEvent.invoke 1, RenderEvent.resume 1,
        RenderEvent.finish 0 true,
        RenderEvent.finish 1 true]).errorsLogged :=
  have h := C1_render_single_flight [] 1 true true
    (fun t ht => absurd ht (List.not_mem_nil t))
  ⟨h.2.1, h.2.2.2.2.1.mpr rfl, h.2.2.2.2.2.1, h.2.2.2.2.2.2.1⟩

/-- C2 witness — the spec's three-page scenario: the viewport center sits at
coordinate 0, page 2's center is exactly there while pages 1 and 3 are 100
and 500 away, and the scroll handler moves `currentPage` from 1 to 2 with
every render-effect dependency untouched. -/
theorem C2_scroll_sync_witness :
    let s0 : ViewerState :=
      { numPages := 3, currentPage := 1, scale := 1, displayScale := 1,
        isLoading := false, error := none, pageInputValue := "1",
        isFitMode := true, scrollMode := .vertical }
    let c0 : Rect := { left := 0, top := -300, width := 800, height := 600 }
    let rf : Nat → Option Rect := fun p =>
      if p = 1 then some { left := 0, top := -100, width := 500, height := 400 }
      else if p = 2 then
        some { left := 0, top := -200, width := 500, height := 400 }
      else if p = 3 then
        some { left := 0, top := 300, width := 500, height := 400 }
      else none
    (syncCurrentPageFromScroll s0 c0 rf).currentPage = 2 ∧
    (∃ q : Nat, ∃ rq : Rect,
      1 ≤ q ∧ q ≤ s0.numPages ∧ rf q = some rq ∧
      (syncCurrentPageFromScroll s0 c0 rf).currentPage = (q : Int) ∧
      (∀ p rp, 1 ≤ p → p ≤ s0.numPages → rf p = some rp →
        pageDist s0.scrollMode c0 rq ≤ pageDist s0.scrollMode c0 rp ∧
        (pageDist s0.scrollMode c0 rp = pageDist s0.scrollMode c0 rq →
          q ≤ p)) ∧
      renderEffectDeps (syncCurrentPageFromScroll s0 c0 rf)
        = renderEffectDeps s0 ∧
      (syncCurrentPageFromScroll s0 c0 rf).scale = s0.scale ∧
      (syncCurrentPageFromScroll s0 c0 rf).isFitMode = s0.isFitMode) := by
  refine ⟨?_, C2_scroll_sync _ _ _ 2
    { left := 0, top := -200, width := 500, height := 400 }
    (by norm_num) (by norm_num) rfl⟩
  norm_num [syncCurrentPageFromScroll, syncStep, Rect.centerAlong,
    List.range']

end Viewer

namespace Shelf

/-- The relevant attributes of a browser `File` object. -/
structure SimFile where
  name : String
  size : Nat
  type : String
deriving DecidableEq

/-- The `PdfEntry` record of the cloud revision (`types/pdf.ts` as used by
`Index.tsx` and `Bookshelf.tsx`): `file` is the optional in-memory blob,
`storagePath` the remote locator (empty while uploading), `thumbnail` the
optional preview data URL. -/
structure PdfEntry where
  id : String
  file : Option SimFile
  storagePath : String
  thumbnail : Option String
  name : String
  size : Nat
  publicUrl : String
deriving DecidableEq

/-- The `StoredPdf` row returned by `uploadPdf` (schema of §6: id, name,
size, storage_path, thumbnail). -/
structure StoredPdf where
  id : String
  name : String
  size : Nat
  storage_path : String
  thumbnail : Option String
deriving DecidableEq

/-- The placeholder entry `handleAdd` inserts optimistically:
`id = tempId, file, storagePath = "", thumbnail = null, name = file.name,
size = file.size, publicUrl = ""`. -/
def tempEntry (tempId : String) (file : SimFile) : PdfEntry :=
  { id := tempId, file := some file, storagePath := "", thumbnail := none,
    name := file.name, size := file.size, publicUrl := "" }

/-- The `realEntry` built from a successful `uploadPdf` result in
`handleAdd`, with `publicUrl = getPublicUrl(stored.storage_path)` (the
backend's pure URL derivation is the parameter `pub`). -/
def persistedEntry (pub : String → String) (file : SimFile)
    (stored : StoredPdf) : PdfEntry :=
  { id := stored.id, file := some file, storagePath := stored.storage_path,
    thumbnail := stored.thumbnail, name := stored.name, size := stored.size,
    publicUrl := pub stored.storage_path }

/-- One file's work item inside `handleAdd`: the generated temporary id and
the outcome of its `uploadPdf` call (`none` = upload failed). -/
structure AddJob where
  tempId : String
  file : SimFile
  uploadResult : Option StoredPdf

/-- One iteration of the `for (const file of files)` loop in `handleAdd`
(`Index.tsx`, cloud revision): append the placeholder, generate the
thumbnail (which does not touch the list), await `uploadPdf`; on success
replace the placeholder (matched by `tempId`) in place by the persisted
entry, on failure filter the placeholder out. -/
def addOneFile (pub : String → String) (books : List PdfEntry)
    (job : AddJob) : List PdfEntry :=
  let withTemp := books ++ [tempEntry job.tempId job.file]
  match job.uploadResult with
  | some stored =>
    withTemp.map (fun b =>
      if b.id = job.tempId then persistedEntry pub job.file stored else b)
  | none => withTemp.filter (fun b => b.id ≠ job.tempId)

/-- Function `handleAdd` over a selection of accepted files: the loop body runs to
completion for each file before the next file starts (the `await`s are
inside the sequential `for...of` loop). -/
def handleAdd (pub : String → String) (books : List PdfEntry)
    (jobs : List AddJob) : List PdfEntry :=
  jobs.foldl (addOneFile pub) books

/-- Function `handleFiles` from `Bookshelf.tsx`:
`pdfs = Array.from(files).filter((f) => f.type === "application/pdf")`, and
`onAdd(pdfs)` is invoked only `if (pdfs.length)`.  The result is the
argument of the `onAdd` call, or `none` when `onAdd` is not called. -/
def handleFiles (files : List SimFile) : Option (List SimFile) :=
  let pdfs := files.filter (fun f => f.type == "application/pdf")
  if pdfs.isEmpty then none else some pdfs

/-- The bookshelf add pipeline: `handleFiles` decides whether `onAdd`
(= `handleAdd`) runs, and on which files; `mkJob` supplies each accepted
file's temporary id and upload outcome. -/
def bookshelfAdd (pub : String → String) (books : List PdfEntry)
    (files : List SimFile) (mkJob : SimFile → AddJob) : List PdfEntry :=
  match handleFiles files with
  | none => books
  | some pdfs => handleAdd pub books (pdfs.map mkJob)

/-- Number of `uploadPdf` calls made by the add pipeline: `handleAdd` calls
`uploadPdf` exactly once per iteration of its loop, i.e. once per accepted
file; when `onAdd` is never invoked there is no call at all. -/
def uploadCallCount (files : List SimFile) : Nat :=
  match handleFiles files with
  | none => 0
  | some pdfs => pdfs.length

/-- The `Index` component's state (cloud revision): the entry list, the
entry being opened (if any), the blob handed to the viewer (if resolved),
and the initial-library-load flag. -/
structure IndexState where
  books : List PdfEntry
  activeEntry : Option PdfEntry
  openFile : Option SimFile
  isInitialLoading : Bool
deriving DecidableEq

/-- Function `handleOpen` from `Index.tsx` (cloud revision): set `activeEntry`; if
the entry has a local blob use it directly, otherwise await
`downloadPdfAsFile` (outcome `downloadResult`; `none` = download failed).
On a successful download set `openFile` and cache the blob on the entry;
on failure nothing further happens. -/
def handleOpen (s : IndexState) (entry : PdfEntry)
    (downloadResult : Option SimFile) : IndexState :=
  let s1 := { s with activeEntry := some entry }
  match entry.file with
  | some f => { s1 with openFile := some f }
  | none =>
    match downloadResult with
    | some f =>
      { s1 with
          openFile := some f,
          books := s1.books.map (fun b =>
            if b.id = entry.id then { b with file := some f } else b) }
    | none => s1

/-- The four screens the `Index` component can render, in the order of its
early-return branches. -/
inductive Screen
  | initialLoading
  | viewer
  | openingSpinner
  | bookshelf
deriving DecidableEq

/-- The branch structure of `Index`'s JSX: initial-loading spinner, else the
viewer when both `activeEntry` and `openFile` are set, else the
"Dokument wird geöffnet…" spinner when an entry is active but no blob has
arrived, else the bookshelf. -/
def screenOf (s : IndexState) : Screen :=
  if s.isInitialLoading then .initialLoading
  else
    match s.activeEntry, s.openFile with
    | some _, some _ => .viewer
    | some _, none => .openingSpinner
    | none, _ => .bookshelf

/-- Whether the rendered screen contains any control that lets the user
retry or return, read off the JSX: the viewer has the close button, the
bookshelf is the home screen, while both spinner screens render only a
`Loader2` icon and a text line. -/
def hasRetryOrReturnPath : Screen → Bool
  | .initialLoading => false
  | .viewer => true
  | .openingSpinner => false
  | .bookshelf => true

/-- A cloud-only library entry: persisted remotely, no local blob. -/
def cloudEntry : PdfEntry :=
  { id := "42", file := none, storagePath := "pdfs/doc.pdf",
    thumbnail := none, name := "doc.pdf", size := 1000,
    publicUrl := "https://cdn.example/pdfs/doc.pdf" }

/-- The observable steps of one file's `handleAdd` sequence, in source
order: optimistic insert, thumbnail generation, the `uploadPdf` call, its
resolution, and the reconcile (replace or rollback) of the placeholder. -/
inductive AddEvent
  | insert : Nat → AddEvent
  | thumbnail : Nat → AddEvent
  | uploadCall : Nat → AddEvent
  | uploadResolve : Nat → AddEvent
  | reconcile : Nat → AddEvent
deriving DecidableEq

/-- The event sequence of file `i`'s loop iteration in `handleAdd`. -/
def fileTrace (i : Nat) : List AddEvent :=
  [.insert i, .thumbnail i, .uploadCall i, .uploadResolve i, .reconcile i]

/-- The full event trace of `handleAdd` on `n` files: because the `await`s
sit inside the `for...of` loop, the iterations run back-to-back, file 0
first. -/
def handleAddTrace (n : Nat) : List AddEvent :=
  ((List.range n).map fileTrace).flatten

end Shelf

namespace Viewer

/-- C3 — For every delta (equivalently, `goTo(n)` with `n = currentPage +
delta`), `navigate` clamps the target page to `[1, pageCount]`: a target
above `numPages` yields `numPages`, a target below 1 yields 1, an in-range
target is taken as is, and the resulting `currentPage` always lies in
`[1, numPages]`.  The hypothesis `1 ≤ numPages` is the Ready state of a
document that has at least one page (the degenerate `numPages = 0` boundary
is the subject of claim C10). -/
theorem C3_navigation_clamps (s : ViewerState) (d : Int)
    (hpc : 1 ≤ s.numPages) :
    ((s.numPages : Int) < s.currentPage + d →
      (navigate s d).currentPage = s.numPages) ∧
    (s.currentPage + d < 1 → (navigate s d).currentPage = 1) ∧
    (1 ≤ s.currentPage + d → s.currentPage + d ≤ (s.numPages : Int) →
      (navigate s d).currentPage = s.currentPage + d) ∧
    1 ≤ (navigate s d).currentPage ∧
    (navigate s d).currentPage ≤ (s.numPages : Int) := by
  have hpc' : (1 : Int) ≤ (s.numPages : Int) := by exact_mod_cast hpc
  unfold navigate
  refine ⟨fun h => ?_, fun h => ?_, fun h1 h2 => ?_, ?_, ?_⟩
  · simp only
    rw [max_eq_right (by omega), min_eq_left (by omega)]
  · simp only
    rw [max_eq_left (by omega), min_eq_right (by omega)]
  · simp only
    rw [max_eq_right (by omega), min_eq_right (by omega)]
  · simp only
    omega
  · simp only
    omega

/-- C3 witness — the spec's 10-page scenario: from page 1, `goTo(25)`
(= `navigate` with delta 24) clamps to page 10; from page 10, `goTo(0)`
(= `navigate` with delta −10) clamps to page 1. -/
theorem C3_navigation_clamps_witness :
    (navigate
      { numPages := 10, currentPage := 1, scale := 1, displayScale := 1,
        isLoading := false, error := none, pageInputValue := "1",
        isFitMode := true, scrollMode := .vertical } 24).currentPage = 10 ∧
    (navigate
      { numPages := 10, currentPage := 10, scale := 1, displayScale := 1,
        isLoading := false, error := none, pageInputValue := "10",
        isFitMode := true, scrollMode := .vertical } (-10)).currentPage = 1 :=
  ⟨(C3_navigation_clamps _ 24 (by decide)).1 (by decide),
   (C3_navigation_clamps _ (-10) (by decide)).2.1 (by decide)⟩

/-- C10 — `navigate` computes `Math.min(numPages, Math.max(1, currentPage +
delta))`, i.e. the upper clamp is applied after the lower clamp; hence for
`numPages = 0` every navigation call sets `currentPage` to 0 (below the
documented lower bound 1), while for `numPages ≥ 1` the result always lies
in `[1, numPages]`. -/
theorem C10_navigate_lower_clamp_first (s : ViewerState) (d : Int) :
    (navigate s d).currentPage
      = min (s.numPages : Int) (max 1 (s.currentPage + d)) ∧
    (s.numPages = 0 → (navigate s d).currentPage = 0) ∧
    (1 ≤ s.numPages →
      1 ≤ (navigate s d).currentPage ∧
      (navigate s d).currentPage ≤ (s.numPages : Int)) := by
  unfold navigate
  refine ⟨rfl, fun h => ?_, fun h => ?_⟩
  · simp only [h]
    omega
  · have h' : (1 : Int) ≤ (s.numPages : Int) := by exact_mod_cast h
    simp only
    omega

/-- C10 witness — with `numPages = 0` a navigation lands on page 0; with
`numPages = 10` the same call stays within `[1, 10]`. -/
theorem C10_navigate_lower_clamp_first_witness :
    (navigate
      { numPages := 0, currentPage := 1, scale := 1, displayScale := 1,
        isLoading := true, error := none, pageInputValue := "1",
        isFitMode := true, scrollMode := .vertical } 5).currentPage = 0 ∧
    (1 ≤ (navigate
      { numPages := 10, currentPage := 3, scale := 1, displayScale := 1,
        isLoading := false, error := none, pageInputValue := "3",
        isFitMode := true, scrollMode := .vertical } 5).currentPage ∧
     (navigate
      { numPages := 10, currentPage := 3, scale := 1, displayScale := 1,
        isLoading := false, error := none, pageInputValue := "3",
        isFitMode := true, scrollMode := .vertical } 5).currentPage ≤ 10) :=
  ⟨(C10_navigate_lower_clamp_first _ 5).2.1 rfl,
   (C10_navigate_lower_clamp_first _ 5).2.2 (by decide)⟩

/-- C4 — committing the manual page input: when the text parses (in the JS
`parseInt` sense) to an integer within `[1, numPages]`, `currentPage`
becomes that integer; when it is non-numeric or parses outside the range,
`currentPage` is unchanged and the displayed text is reset to the current
page (never clamped). -/
theorem C4_page_input_commit (s : ViewerState) :
    (∀ p : Int, parseIntBase10 s.pageInputValue = some p →
      1 ≤ p → p ≤ (s.numPages : Int) →
      (commitPageInput s).currentPage = p) ∧
    ((∀ p : Int, parseIntBase10 s.pageInputValue = some p →
        p < 1 ∨ (s.numPages : Int) < p) →
      (commitPageInput s).currentPage = s.currentPage ∧
      (commitPageInput s).pageInputValue = toString s.currentPage) := by
  unfold commitPageInput
  constructor
  · intro p hp h1 h2
    simp [hp, h1, h2]
  · intro hbad
    cases hparse : parseIntBase10 s.pageInputValue with
    | none => exact ⟨rfl, rfl⟩
    | some p =>
      have hp2 := hbad p hparse
      have hnot : ¬(1 ≤ p ∧ p ≤ (s.numPages : Int)) := by omega
      simp [hnot]

/-- Rounding to hundredths never adds more than half a hundredth. -/
theorem toFixed2_le (q : ℚ) : toFixed2 q ≤ q + 1/200 := by
  unfold toFixed2
  have h : ((⌊q * 100 + 1/2⌋ : ℤ) : ℚ) ≤ q * 100 + 1/2 := Int.floor_le _
  linarith

/-- Rounding to hundredths never subtracts half a hundredth or more. -/
theorem lt_toFixed2 (q : ℚ) : q - 1/200 < toFixed2 q := by
  unfold toFixed2
  have h := Int.lt_floor_add_one (q * 100 + 1/2)
  have h' : q * 100 - 1/2 < ((⌊q * 100 + 1/2⌋ : ℤ) : ℚ) := by linarith
  linarith

/-- An exact multiple of 1/100 is a fixed point of `toFixed2`. -/
theorem toFixed2_centi (m : ℤ) : toFixed2 ((m : ℚ) / 100) = (m : ℚ) / 100 := by
  unfold toFixed2
  have h1 : (m : ℚ) / 100 * 100 + 1/2 = 1/2 + (m : ℚ) := by ring
  rw [h1, Int.floor_add_int]
  norm_num

/-- Rounding with `toFixed2` always lands on a multiple of 1/100. -/
theorem toFixed2_eq_centi (q : ℚ) : ∃ m : ℤ, toFixed2 q = (m : ℚ) / 100 :=
  ⟨⌊q * 100 + 1/2⌋, rfl⟩

/-- Rounding with `toFixed2` is monotone. -/
theorem toFixed2_mono {a b : ℚ} (h : a ≤ b) : toFixed2 a ≤ toFixed2 b := by
  unfold toFixed2
  have hf : ⌊a * 100 + 1/2⌋ ≤ ⌊b * 100 + 1/2⌋ :=
    Int.floor_le_floor (by linarith)
  have hf' : ((⌊a * 100 + 1/2⌋ : ℤ) : ℚ) ≤ ((⌊b * 100 + 1/2⌋ : ℤ) : ℚ) := by
    exact_mod_cast hf
  linarith

/-- C5 counterexample — the claim's round trip fails at the reachable
starting scale `MAX_SCALE` = 4.0 (reached by zooming in repeatedly): there
`zoomIn` is absorbed by the upper clamp, yet `zoomOut` still subtracts the
full step, so the composite lands at 3.75, off by a quarter — far beyond
the claim's "within floating-point rounding of the 0.25 step". -/
theorem C5_zoom_roundtrip_counterexample :
    let s : ViewerState :=
      { numPages := 10, currentPage := 1, scale := 4, displayScale := 4,
        isLoading := false, error := none, pageInputValue := "1",
        isFitMode := false, scrollMode := .vertical }
    s.scale = MAX_SCALE ∧
    (zoomOut (zoomIn s)).scale = 15/4 ∧
    (zoomOut (zoomIn s)).scale ≠ s.scale ∧
    |(zoomOut (zoomIn s)).scale - s.scale| = 1/4 := by
  intro s
  have h1 : toFixed2 ((4 : ℚ) + SCALE_STEP) = 17/4 := by
    rw [show SCALE_STEP = 1/4 from rfl,
      show (4 : ℚ) + 1/4 = 17/4 by norm_num]
    unfold toFixed2
    norm_num
  have h2 : toFixed2 ((4 : ℚ) - SCALE_STEP) = 15/4 := by
    rw [show SCALE_STEP = 1/4 from rfl,
      show (4 : ℚ) - 1/4 = 15/4 by norm_num]
    unfold toFixed2
    norm_num
  have hz1 : (zoomIn s).scale = 4 := by
    show min MAX_SCALE (toFixed2 (s.scale + SCALE_STEP)) = 4
    rw [show s.scale = (4 : ℚ) from rfl, h1,
      show MAX_SCALE = (4 : ℚ) from rfl]
    norm_num
  have hz2 : (zoomOut (zoomIn s)).scale = 15/4 := by
    show max MIN_SCALE (toFixed2 ((zoomIn s).scale - SCALE_STEP)) = 15/4
    rw [hz1, h2, show MIN_SCALE = (1 : ℚ)/4 from rfl]
    norm_num
  refine ⟨rfl, hz2, ?_, ?_⟩
  · rw [hz2, show s.scale = (4 : ℚ) from rfl]
    norm_num
  · rw [hz2, show s.scale = (4 : ℚ) from rfl, abs_of_nonpos] <;> norm_num

/-- C5 (amended) — `zoomIn`/`zoomOut` disable `fitMode` and move `scale` by
the 0.25 step rounded to hundredths, clamped into `[MIN_SCALE, MAX_SCALE]`;
and for every starting scale in `[MIN_SCALE, MAX_SCALE − SCALE_STEP]` the
composite `zoomOut ∘ zoomIn` returns to the original scale up to the 1/200
rounding tolerance of `toFixed(2)` — exactly, whenever the starting scale is
itself a multiple of 1/100 (as every scale produced by the zoom buttons is).
Above `MAX_SCALE − SCALE_STEP` the upper clamp makes the round trip lose
the excess (see the counterexample). -/
theorem C5_zoom_step_roundtrip (s : ViewerState)
    (hlo : MIN_SCALE ≤ s.scale) (hhi : s.scale ≤ MAX_SCALE - SCALE_STEP) :
    (zoomIn s).isFitMode = false ∧
    (zoomOut s).isFitMode = false ∧
    (zoomIn s).scale = min MAX_SCALE (toFixed2 (s.scale + SCALE_STEP)) ∧
    (zoomOut s).scale = max MIN_SCALE (toFixed2 (s.scale - SCALE_STEP)) ∧
    MIN_SCALE ≤ (zoomIn s).scale ∧ (zoomIn s).scale ≤ MAX_SCALE ∧
    |(zoomOut (zoomIn s)).scale - s.scale| ≤ 1/200 ∧
    (∀ m : ℤ, s.scale = (m : ℚ) / 100 →
      (zoomIn s).scale = s.scale + SCALE_STEP ∧
      (zoomOut (zoomIn s)).scale = s.scale) := by
  have hss : SCALE_STEP = 1/4 := rfl
  have hmin : MIN_SCALE = 1/4 := rfl
  have hmax : MAX_SCALE = 4 := rfl
  have hub := toFixed2_le (s.scale + SCALE_STEP)
  have hlb := lt_toFixed2 (s.scale + SCALE_STEP)
  have hu_le4 : toFixed2 (s.scale + SCALE_STEP) ≤ 4 := by
    have h40 : toFixed2 (4 : ℚ) = 4 := by
      unfold toFixed2
      norm_num
    have hmono :=
      @toFixed2_mono (s.scale + SCALE_STEP) 4 (by linarith)
    linarith
  have hu_ge : (1 : ℚ)/4 ≤ toFixed2 (s.scale + SCALE_STEP) := by linarith
  have hin : (zoomIn s).scale = toFixed2 (s.scale + SCALE_STEP) := by
    show min MAX_SCALE (toFixed2 (s.scale + SCALE_STEP)) = _
    rw [hmax]
    exact min_eq_right hu_le4
  obtain ⟨m, hm⟩ := toFixed2_eq_centi (s.scale + SCALE_STEP)
  have hdiff : toFixed2 (s.scale + SCALE_STEP) - SCALE_STEP
      = ((m - 25 : ℤ) : ℚ) / 100 := by
    rw [hm, hss]
    push_cast
    ring
  have hfix : toFixed2 (toFixed2 (s.scale + SCALE_STEP) - SCALE_STEP)
      = toFixed2 (s.scale + SCALE_STEP) - SCALE_STEP := by
    rw [hdiff, toFixed2_centi]
  have hout : (zoomOut (zoomIn s)).scale
      = max MIN_SCALE (toFixed2 (s.scale + SCALE_STEP) - SCALE_STEP) := by
    show max MIN_SCALE (toFixed2 ((zoomIn s).scale - SCALE_STEP)) = _
    rw [hin, hfix]
  refine ⟨rfl, rfl, rfl, rfl, ?_, ?_, ?_, ?_⟩
  · rw [hin]
    linarith
  · rw [hin]
    linarith
  · rw [hout]
    rcases le_or_lt MIN_SCALE (toFixed2 (s.scale + SCALE_STEP) - SCALE_STEP)
      with h | h
    · rw [max_eq_right h, abs_le]
      constructor <;> linarith
    · rw [max_eq_left h.le, abs_le]
      constructor <;> linarith
  · intro k hk
    have h1 : s.scale + SCALE_STEP = ((k + 25 : ℤ) : ℚ) / 100 := by
      rw [hk, hss]
      push_cast
      ring
    have hexact : toFixed2 (s.scale + SCALE_STEP) = s.scale + SCALE_STEP := by
      rw [h1]
      exact toFixed2_centi (k + 25)
    constructor
    · rw [hin, hexact]
    · rw [hout, hexact]
      have h2 : s.scale + SCALE_STEP - SCALE_STEP = s.scale := by ring
      rw [h2, hmin]
      exact max_eq_right (by linarith)

/-- C5 witness — from the concrete starting scale 1.0 (a multiple of 1/100
below `MAX_SCALE − SCALE_STEP`): `zoomIn` lands at 1.25 with `fitMode`
disabled, and `zoomOut` returns exactly to 1.0. -/
theorem C5_zoom_step_roundtrip_witness :
    (zoomIn
      { numPages := 10, currentPage := 1, scale := 1, displayScale := 1,
        isLoading := false, error := none, pageInputValue := "1",
        isFitMode := true, scrollMode := .vertical }).isFitMode = false ∧
    (zoomIn
      { numPages := 10, currentPage := 1, scale := 1, displayScale := 1,
        isLoading := false, error := none, pageInputValue := "1",
        isFitMode := true, scrollMode := .vertical }).scale = 5/4 ∧
    (zoomOut (zoomIn
      { numPages := 10, currentPage := 1, scale := 1, displayScale := 1,
        isLoading := false, error := none, pageInputValue := "1",
        isFitMode := true, scrollMode := .vertical })).scale = 1 := by
  have h := C5_zoom_step_roundtrip
    { numPages := 10, currentPage := 1, scale := 1, displayScale := 1,
      isLoading := false, error := none, pageInputValue := "1",
      isFitMode := true, scrollMode := .vertical }
    (by norm_num [MIN_SCALE]) (by norm_num [MAX_SCALE, SCALE_STEP])
  obtain ⟨h1, -, -, -, -, -, -, h8⟩ := h
  obtain ⟨h9, h10⟩ := h8 100 (by norm_num)
  refine ⟨h1, ?_, ?_⟩
  · rw [h9]
    norm_num [SCALE_STEP]
  · rw [h10]

/-- C4 witness — on a 10-page document with current page 4: committing "0"
(out of range) leaves `currentPage` at 4 and resets the field to "4";
committing "7" moves to page 7. -/
theorem C4_page_input_commit_witness :
    ((commitPageInput
      { numPages := 10, currentPage := 4, scale := 1, displayScale := 1,
        isLoading := false, error := none, pageInputValue := "0",
        isFitMode := true, scrollMode := .vertical }).currentPage = 4 ∧
     (commitPageInput
      { numPages := 10, currentPage := 4, scale := 1, displayScale := 1,
        isLoading := false, error := none, pageInputValue := "0",
        isFitMode := true, scrollMode := .vertical }).pageInputValue = "4") ∧
    (commitPageInput
      { numPages := 10, currentPage := 4, scale := 1, displayScale := 1,
        isLoading := false, error := none, pageInputValue := "7",
        isFitMode := true, scrollMode := .vertical }).currentPage = 7 :=
  ⟨(C4_page_input_commit _).2 (by decide),
   (C4_page_input_commit _).1 7 (by decide) (by decide) (by decide)⟩

end Viewer

namespace Shelf

/-- C6 — opening a cloud-only entry whose download fails: `handleOpen` sets
`activeEntry` but never sets `openFile` and never clears `activeEntry`, so
the `Index` component renders the "Dokument wird geöffnet…" spinner screen,
which contains no retry or return control — the UI is stuck in an
indefinite loading state, contradicting the claim's required retry/return
path. -/
theorem C6_download_failure_no_escape :
    let s0 : IndexState :=
      { books := [cloudEntry], activeEntry := none, openFile := none,
        isInitialLoading := false }
    let s1 := handleOpen s0 cloudEntry none
    cloudEntry.file = none ∧
    screenOf s1 = Screen.openingSpinner ∧
    hasRetryOrReturnPath (screenOf s1) = false ∧
    s1.activeEntry = some cloudEntry ∧
    s1.openFile = none :=
  ⟨rfl, rfl, rfl, rfl, rfl⟩

/-- The placeholder rollback of a failed upload restores the previous list
exactly, provided the temporary id is fresh. -/
theorem filter_rollback (tid : String) (f : SimFile)
    (books : List PdfEntry) (hfresh : ∀ b ∈ books, b.id ≠ tid) :
    (books ++ [tempEntry tid f]).filter (fun b => b.id ≠ tid) = books := by
  induction books with
  | nil => simp [tempEntry]
  | cons b bs ih =>
    have hb : b.id ≠ tid := hfresh b (by simp)
    simp only [List.cons_append, List.filter_cons]
    rw [if_pos (by simpa using hb)]
    rw [ih (fun x hx => hfresh x (by simp [hx]))]

/-- The placeholder replacement of a successful upload swaps exactly the
placeholder, in place, provided the temporary id is fresh. -/
theorem map_replace (pub : String → String) (tid : String) (f : SimFile)
    (stored : StoredPdf) (books : List PdfEntry)
    (hfresh : ∀ b ∈ books, b.id ≠ tid) :
    (books ++ [tempEntry tid f]).map (fun b =>
        if b.id = tid then persistedEntry pub f stored else b)
      = books ++ [persistedEntry pub f stored] := by
  induction books with
  | nil => simp [tempEntry]
  | cons b bs ih =>
    have hb : b.id ≠ tid := hfresh b (by simp)
    simp only [List.cons_append, List.map_cons]
    rw [if_neg hb]
    rw [ih (fun x hx => hfresh x (by simp [hx]))]

/-- C7 — one `handleAdd` iteration with a fresh temporary id: if the upload
fails, the list afterwards is exactly the list from before — the
placeholder is gone and no other entry is touched; if the upload succeeds,
the placeholder is replaced in place (at its position, matched by the
temporary id) by the persisted entry; and after a failed upload no entry
with the temporary id remains. -/
theorem C7_upload_reconcile (pub : String → String) (books : List PdfEntry)
    (job : AddJob) (hfresh : ∀ b ∈ books, b.id ≠ job.tempId) :
    (job.uploadResult = none → addOneFile pub books job = books) ∧
    (∀ stored, job.uploadResult = some stored →
      addOneFile pub books job
        = books ++ [persistedEntry pub job.file stored]) ∧
    (job.uploadResult = none →
      ∀ b ∈ addOneFile pub books job, b.id ≠ job.tempId) := by
  refine ⟨?_, ?_, ?_⟩
  · intro hnone
    unfold addOneFile
    rw [hnone]
    exact filter_rollback job.tempId job.file books hfresh
  · intro stored hsome
    unfold addOneFile
    rw [hsome]
    exact map_replace pub job.tempId job.file stored books hfresh
  · intro hnone b hb
    unfold addOneFile at hb
    simp only [hnone] at hb
    rw [filter_rollback job.tempId job.file books hfresh] at hb
    exact hfresh b hb

/-- C7 witness — the spec's two-file scenario: starting from an empty
shelf, the first file's upload fails and the second succeeds; the final
list holds exactly the second file's persisted entry, with its remote
locator set. -/
theorem C7_upload_reconcile_witness :
    let pub0 : String → String := fun s => "https://cdn/" ++ s
    let fa : SimFile := { name := "a.pdf", size := 5,
                          type := "application/pdf" }
    let fb : SimFile := { name := "b.pdf", size := 7,
                          type := "application/pdf" }
    let sb : StoredPdf := { id := "id-2", name := "b.pdf", size := 7,
                            storage_path := "files/b.pdf",
                            thumbnail := none }
    let job1 : AddJob := { tempId := "temp-1", file := fa,
                           uploadResult := none }
    let job2 : AddJob := { tempId := "temp-2", file := fb,
                           uploadResult := some sb }
    handleAdd pub0 [] [job1, job2] = [persistedEntry pub0 fb sb] ∧
    (persistedEntry pub0 fb sb).storagePath = "files/b.pdf" := by
  intro pub0 fa fb sb job1 job2
  have h1 := (C7_upload_reconcile pub0 [] job1 (by simp)).1 rfl
  have h2 := ((C7_upload_reconcile pub0 [] job2 (by simp)).2.1) sb rfl
  refine ⟨?_, rfl⟩
  have hfold : handleAdd pub0 [] [job1, job2]
      = addOneFile pub0 (addOneFile pub0 [] job1) job2 := rfl
  rw [hfold, h1, h2]
  rfl

end Shelf

namespace Shelf

/-- The trace of `n + 1` files is the trace of `n` files followed by the
last file's iteration. -/
theorem handleAddTrace_succ (n : Nat) :
    handleAddTrace (n + 1) = handleAddTrace n ++ fileTrace n := by
  unfold handleAddTrace
  rw [List.range_succ, List.map_append, List.flatten_append]
  simp

/-- Each file's five events occur, in order, in the full trace. -/
theorem fileTrace_sublist {i n : Nat} (h : i < n) :
    List.Sublist (fileTrace i) (handleAddTrace n) := by
  induction n with
  | zero => exact absurd h (by omega)
  | succ n ih =>
    rw [handleAddTrace_succ]
    rcases Nat.lt_or_ge i n with h' | h'
    · exact (ih h').trans (List.sublist_append_left _ _)
    · have hin : i = n := by omega
      subst hin
      exact List.sublist_append_right _ _

/-- For `i < j`, file `i`'s whole iteration precedes file `j`'s whole
iteration in the trace. -/
theorem fileTrace_pair_sublist {i j n : Nat} (hij : i < j) (hj : j < n) :
    List.Sublist (fileTrace i ++ fileTrace j) (handleAddTrace n) := by
  induction n with
  | zero => exact absurd hj (by omega)
  | succ n ih =>
    rw [handleAddTrace_succ]
    rcases Nat.lt_or_ge j n with h' | h'
    · exact (ih h').trans (List.sublist_append_left _ _)
    · have hjn : j = n := by omega
      subst hjn
      exact List.Sublist.append (fileTrace_sublist hij) (List.Sublist.refl _)

/-- C8 counterexample — with two files added together, the second file's
optimistic placeholder insert happens only after the first file's upload
has resolved (the `await`s are inside the sequential `for...of` loop), so
the files' placeholder-then-reconcile sequences do block one another,
contrary to the claim's independence requirement. -/
theorem C8_counterexample :
    List.Sublist [AddEvent.uploadResolve 0, AddEvent.insert 1]
      (handleAddTrace 2) ∧
    ¬ List.Sublist [AddEvent.insert 1, AddEvent.uploadResolve 0]
      (handleAddTrace 2) := by decide

/-- C8 (amended) — `handleAdd` processes the accepted files strictly
sequentially, in selection order: within each file's iteration the steps
are ordered placeholder-insert, thumbnail, upload call, upload resolution,
reconcile — so each placeholder appears before that file's own upload
resolves, and the thumbnail is generated before the persist call — but the
iterations are not independent: for `i < j`, file `j`'s placeholder is
inserted only after file `i`'s whole sequence, reconcile included, has
finished. -/
theorem C8_sequential_ordering (n i j : Nat) (hi : i < n) (hij : i < j)
    (hj : j < n) :
    List.Sublist (fileTrace i) (handleAddTrace n) ∧
    List.Sublist [AddEvent.insert i, AddEvent.uploadResolve i]
      (fileTrace i) ∧
    List.Sublist [AddEvent.thumbnail i, AddEvent.uploadCall i]
      (fileTrace i) ∧
    List.Sublist [AddEvent.reconcile i, AddEvent.insert j]
      (handleAddTrace n) := by
  refine ⟨fileTrace_sublist hi, ?_, ?_, ?_⟩
  · exact .cons₂ _ (.cons _ (.cons _ (.cons₂ _ (List.nil_sublist _))))
  · exact .cons _ (.cons₂ _ (.cons₂ _ (List.nil_sublist _)))
  · have h1 : List.Sublist [AddEvent.reconcile i] (fileTrace i) :=
      .cons _ (.cons _ (.cons _ (.cons _ (.cons₂ _ (List.nil_sublist _)))))
    have h2 : List.Sublist [AddEvent.insert j] (fileTrace j) :=
      .cons₂ _ (List.nil_sublist _)
    exact (List.Sublist.append h1 h2).trans (fileTrace_pair_sublist hij hj)

/-- C8 witness — concrete instance of the amended ordering for two files. -/
theorem C8_sequential_ordering_witness :
    List.Sublist (fileTrace 0) (handleAddTrace 2) ∧
    List.Sublist [AddEvent.insert 0, AddEvent.uploadResolve 0]
      (fileTrace 0) ∧
    List.Sublist [AddEvent.thumbnail 0, AddEvent.uploadCall 0]
      (fileTrace 0) ∧
    List.Sublist [AddEvent.reconcile 0, AddEvent.insert 1]
      (handleAddTrace 2) :=
  C8_sequential_ordering 2 0 1 (by decide) (by decide) (by decide)

/-- C9 — `handleFiles` passes to `onAdd` exactly the files whose declared
media type is the string "application/pdf": a file of any other type is
never part of an `onAdd` call; the number of `uploadPdf` calls equals the
number of accepted files; and when every selected file is rejected, the
entry list is untouched and no store call happens at all. -/
theorem C9_pdf_type_filter (pub : String → String) (books : List PdfEntry)
    (files : List SimFile) (mkJob : SimFile → AddJob) :
    (∀ f ∈ files, f.type ≠ "application/pdf" →
      ∀ accepted, handleFiles files = some accepted → f ∉ accepted) ∧
    (∀ accepted, handleFiles files = some accepted →
      ∀ f ∈ accepted, f.type = "application/pdf" ∧ f ∈ files) ∧
    uploadCallCount files
      = (files.filter (fun f => f.type == "application/pdf")).length ∧
    ((∀ f ∈ files, f.type ≠ "application/pdf") →
      bookshelfAdd pub books files mkJob = books ∧
      uploadCallCount files = 0) := by
  refine ⟨?_, ?_, ?_, ?_⟩
  · intro f hf hty accepted hacc hmem
    unfold handleFiles at hacc
    by_cases he : (files.filter (fun f => f.type == "application/pdf")).isEmpty
    · rw [if_pos he] at hacc
      exact Option.noConfusion hacc
    · rw [if_neg he] at hacc
      injection hacc with h
      subst h
      have := (List.mem_filter.mp hmem).2
      exact hty (by simpa using this)
  · intro accepted hacc f hmem
    unfold handleFiles at hacc
    by_cases he : (files.filter (fun f => f.type == "application/pdf")).isEmpty
    · rw [if_pos he] at hacc
      exact Option.noConfusion hacc
    · rw [if_neg he] at hacc
      injection hacc with h
      subst h
      obtain ⟨hin, hty⟩ := List.mem_filter.mp hmem
      exact ⟨by simpa using hty, hin⟩
  · unfold uploadCallCount handleFiles
    by_cases he : (files.filter (fun f => f.type == "application/pdf")).isEmpty
    · rw [if_pos he]
      have : files.filter (fun f => f.type == "application/pdf") = [] := by
        simpa using he
      rw [this]
      rfl
    · rw [if_neg he]
  · intro hall
    have hfe : files.filter (fun f => f.type == "application/pdf") = [] := by
      rw [List.filter_eq_nil_iff]
      intro f hf
      simpa using hall f hf
    constructor
    · unfold bookshelfAdd handleFiles
      rw [hfe]
      rfl
    · unfold uploadCallCount handleFiles
      rw [hfe]
      rfl

/-- C9 witness — a selection containing only a plain-text file: the add
pipeline leaves the shelf unchanged and performs zero store calls. -/
theorem C9_pdf_type_filter_witness :
    bookshelfAdd (fun s => s) []
        [{ name := "notes.txt", size := 10, type := "text/plain" }]
        (fun f => { tempId := "t", file := f, uploadResult := none })
      = [] ∧
    uploadCallCount
        [{ name := "notes.txt", size := 10, type := "text/plain" }] = 0 :=
  (C9_pdf_type_filter (fun s => s) []
    [{ name := "notes.txt", size := 10, type := "text/plain" }]
    (fun f => { tempId := "t", file := f, uploadResult := none })).2.2.2
    (by decide)

end Shelf
